import Mathlib

/-!
Verification development for the invoice RAG pipeline
(create_chunks.py, build_vectordb.py, query_rag.py).

The Python data values exchanged between the stages are JSON values; we
model them with the inductive type JVal. Python dicts are modelled as
association lists in insertion order (Python dicts preserve insertion
order and this order is what the formatter iterates over).
-/

inductive JVal where
  | str (s : String)
  | num (n : Int)
  | bool (b : Bool)
  | null
  | list (xs : List JVal)
  | obj (fields : List (String × JVal))
deriving Repr

/-- A parsed record (Python dict), as an insertion-ordered association list. -/
abbrev Record := List (String × JVal)

/-- Python truthiness of a JSON value: empty strings, zero, False, None,
empty lists and empty dicts are falsy; everything else is truthy. -/
def truthy : JVal → Bool
  | .str s => !s.isEmpty
  | .num n => n != 0
  | .bool b => b
  | .null => false
  | .list xs => !xs.isEmpty
  | .obj fs => !fs.isEmpty

/-- A value is a flat scalar when it is neither a list nor a mapping. -/
def isScalar : JVal → Bool
  | .list _ => false
  | .obj _ => false
  | _ => true

mutual

/-- Python str() applied to a JSON value: strings are returned as-is,
numbers in decimal, booleans as True or False, None as None, and
lists and dicts fall back to their repr form. -/
def pyStr : JVal → String
  | .str s => s
  | .num n => toString n
  | .bool b => if b then "True" else "False"
  | .null => "None"
  | .list xs => "[" ++ pyReprList xs ++ "]"
  | .obj fs => "\x7b" ++ pyReprObj fs ++ "\x7d"

/-- Python repr() applied to a JSON value: like str(), but strings are
quoted. -/
def pyRepr : JVal → String
  | .str s => "\x27" ++ s ++ "\x27"
  | .num n => toString n
  | .bool b => if b then "True" else "False"
  | .null => "None"
  | .list xs => "[" ++ pyReprList xs ++ "]"
  | .obj fs => "\x7b" ++ pyReprObj fs ++ "\x7d"

/-- Elements of a Python list, repr-ed and joined with a comma and space. -/
def pyReprList : List JVal → String
  | [] => ""
  | [v] => pyRepr v
  | v :: w :: rest => pyRepr v ++ ", " ++ pyReprList (w :: rest)

/-- Entries of a Python dict, rendered as repr(key): repr(value) and
joined with a comma and space. -/
def pyReprObj : List (String × JVal) → String
  | [] => ""
  | [(k, v)] => pyRepr (.str k) ++ ": " ++ pyRepr v
  | (k, v) :: e :: rest => pyRepr (.str k) ++ ": " ++ pyRepr v ++ ", " ++ pyReprObj (e :: rest)

end

/-- One character of the JSON string escaping performed by json.dumps. -/
def jsonEscapeChar (c : Char) : String :=
  if c = '\\' then "\\\\"
  else if c = '"' then "\\\""
  else if c = '\n' then "\\n"
  else if c = '\t' then "\\t"
  else if c = '\r' then "\\r"
  else String.singleton c

/-- JSON string escaping performed by json.dumps (common escapes). -/
def jsonEscape (s : String) : String :=
  String.join (s.toList.map jsonEscapeChar)

mutual

/-- json.dumps with the default separators, as used by
format_invoice_as_text on dict-valued fields. -/
def jsonDumps : JVal → String
  | .str s => "\"" ++ jsonEscape s ++ "\""
  | .num n => toString n
  | .bool b => if b then "true" else "false"
  | .null => "null"
  | .list xs => "[" ++ jsonDumpsList xs ++ "]"
  | .obj fs => "\x7b" ++ jsonDumpsObj fs ++ "\x7d"

/-- Elements of a JSON array, dumped and joined with a comma and space. -/
def jsonDumpsList : List JVal → String
  | [] => ""
  | [v] => jsonDumps v
  | v :: w :: rest => jsonDumps v ++ ", " ++ jsonDumpsList (w :: rest)

/-- Entries of a JSON object, dumped as "key": value and joined with a
comma and space. -/
def jsonDumpsObj : List (String × JVal) → String
  | [] => ""
  | [(k, v)] => "\"" ++ jsonEscape k ++ "\": " ++ jsonDumps v
  | (k, v) :: e :: rest =>
      "\"" ++ jsonEscape k ++ "\": " ++ jsonDumps v ++ ", " ++ jsonDumpsObj (e :: rest)

end

/-- The fixed preferred-field table of format_invoice_as_text
(create_chunks.py lines 22-33), in its source order. -/
def field_mapping : List (String × String) :=
  [("company", "Company"),
   ("vendor", "Vendor"),
   ("invoice_number", "Invoice Number"),
   ("invoice_date", "Date"),
   ("due_date", "Due Date"),
   ("total", "Total Amount"),
   ("subtotal", "Subtotal"),
   ("tax", "Tax"),
   ("address", "Address"),
   ("items", "Line Items")]

/-- The body of the preferred-field loop of format_invoice_as_text
(create_chunks.py lines 35-46): lists are comma-joined when non-empty,
dicts are always emitted via json.dumps, and other values are emitted
exactly when truthy. Returns none when no line is appended. -/
def renderPreferred (label : String) (value : JVal) : Option String :=
  match value with
  | .list xs =>
      if xs.isEmpty then none
      else some (label ++ ": " ++ String.intercalate ", " (xs.map pyStr))
  | .obj fs => some (label ++ ": " ++ jsonDumps (.obj fs))
  | v => if truthy v then some (label ++ ": " ++ pyStr v) else none

/-- Lines appended by the preferred-field loop of format_invoice_as_text,
in field_mapping order (create_chunks.py lines 35-46). -/
def preferredParts (invoice_data : Record) : List String :=
  field_mapping.filterMap fun fl =>
    match invoice_data.lookup fl.1 with
    | some value => renderPreferred fl.2 value
    | none => none

/-- Lines appended by the remaining-fields loop of format_invoice_as_text
(create_chunks.py lines 49-51): fields not in field_mapping, emitted when
truthy, rendered with str(). -/
def extraParts (invoice_data : Record) : List String :=
  invoice_data.filterMap fun kv =>
    if !((field_mapping.map Prod.fst).contains kv.1) && truthy kv.2 then
      some (kv.1 ++ ": " ++ pyStr kv.2)
    else none

/-- format_invoice_as_text (create_chunks.py lines 9-53): preferred lines
followed by remaining-field lines, newline-joined. -/
def format_invoice_as_text (invoice_data : Record) : String :=
  String.intercalate "\n" (preferredParts invoice_data ++ extraParts invoice_data)

/-!
Chunk builder (create_chunks.py lines 56-102). The file I/O around the
loop is not modelled; the loop body over the already-parsed invoice list
is. An invoice record as written by download_data.py has the fields
id, file_name, data and metadata = (source_index, has_image).
-/

structure Invoice where
  id : String
  file_name : String
  data : Record
  source_index : Int
  has_image : Bool
deriving Repr

structure Chunk where
  id : String
  text : String
  metadata : List (String × JVal)
deriving Repr

/-- Loop body of create_invoice_chunks (create_chunks.py lines 72-88):
one chunk per invoice, with a one-line header naming the source file,
and metadata holding file_name, source_index, has_image and the full
nested structured_data. -/
def chunkOfInvoice (invoice : Invoice) : Chunk :=
  { id := invoice.id
    text := "Invoice: " ++ invoice.file_name ++ "\n\n" ++ format_invoice_as_text invoice.data
    metadata := [("file_name", JVal.str invoice.file_name),
                 ("source_index", JVal.num invoice.source_index),
                 ("has_image", JVal.bool invoice.has_image),
                 ("structured_data", JVal.obj invoice.data)] }

/-- create_invoice_chunks (create_chunks.py lines 56-102), restricted to
its pure core: the accumulation loop over the parsed invoice list. -/
def create_invoice_chunks (invoices : List Invoice) : List Chunk :=
  invoices.map chunkOfInvoice

/-!
Embedding indexer (build_vectordb.py lines 11-86). The ChromaDB client
is modelled as an association list from collection name to the list of
stored (id, embedding, document, metadata) entries; the embedding model
is an arbitrary function from text to an abstract embedding type, since
sentence-transformers encodes each text of a batch independently.
-/

structure Entry (α : Type) where
  id : String
  embedding : α
  document : String
  metadata : List (String × JVal)
deriving Repr

abbrev Client (α : Type) := List (String × List (Entry α))

/-- client.delete_collection wrapped in try/except pass
(build_vectordb.py lines 39-43): removes the collection when present,
does nothing otherwise. -/
def delete_collection {α : Type} (client : Client α) (name : String) : Client α :=
  client.filter fun c => !(c.1 == name)

/-- client.create_collection (build_vectordb.py lines 46-49): called
right after the delete, so the name is fresh; the new collection starts
empty. -/
def create_collection {α : Type} (client : Client α) (name : String) : Client α :=
  (name, []) :: client

/-- client.get_collection by name. -/
def get_collection {α : Type} (client : Client α) (name : String) :
    Option (List (Entry α)) :=
  client.lookup name

/-- collection.add (build_vectordb.py lines 74-79): appends the batch
entries to the named collection. -/
def add_entries {α : Type} (client : Client α) (name : String)
    (new : List (Entry α)) : Client α :=
  client.map fun c => if c.1 = name then (c.1, c.2 ++ new) else c

/-- Metadata flattening of build_invoice_vectordb (build_vectordb.py
lines 60-68): exactly the keys file_name, source_index and has_image are
copied out of the chunk metadata; a missing key is a KeyError, modelled
as none. -/
def persistMetadata (chunk : Chunk) : Option (List (String × JVal)) :=
  match chunk.metadata.lookup "file_name", chunk.metadata.lookup "source_index",
      chunk.metadata.lookup "has_image" with
  | some f, some s, some h =>
      some [("file_name", f), ("source_index", s), ("has_image", h)]
  | _, _, _ => none

/-- Per-batch work of build_invoice_vectordb (build_vectordb.py lines
57-71): for each chunk of the batch, its id, its text as the stored
document, the embedding of its text, and the flattened metadata. The
zip of the parallel ids/texts/embeddings/metadatas lists is built
directly. -/
def processBatch {α : Type} (embed : String → α) : List Chunk → Option (List (Entry α))
  | [] => some []
  | c :: rest =>
    match persistMetadata c, processBatch embed rest with
    | some m, some es =>
        some ({ id := c.id, embedding := embed c.text, document := c.text,
                metadata := m } :: es)
    | _, _ => none

/-- Batch slicing of build_invoice_vectordb (build_vectordb.py lines
54-55): range(0, len(chunks), batch_size) with chunks[i:i+batch_size].
A zero batch size is a ValueError in range; the model returns no
batches for it. -/
def sliceBatches {β : Type} (batch_size : Nat) (xs : List β) : List (List β) :=
  if h : batch_size = 0 then []
  else
    match xs with
    | [] => []
    | x :: rest => (x :: rest).take batch_size :: sliceBatches batch_size ((x :: rest).drop batch_size)
termination_by xs.length
decreasing_by
  simp only [List.length_drop, List.length_cons]
  omega

/-- The batch loop of build_invoice_vectordb (build_vectordb.py lines
54-79): each batch is flattened, embedded and added to the collection;
a failing batch aborts the build. -/
def addBatches {α : Type} (embed : String → α) (name : String) :
    Client α → List (List Chunk) → Option (Client α)
  | client, [] => some client
  | client, b :: rest =>
    match processBatch embed b with
    | none => none
    | some es => addBatches embed name (add_entries client name es) rest

/-- build_invoice_vectordb (build_vectordb.py lines 11-86), restricted
to its pure core: delete any existing collection of that name, create a
fresh one, then add the chunk batches. -/
def build_invoice_vectordb {α : Type} (embed : String → α) (client : Client α)
    (chunks : List Chunk) (collection_name : String) (batch_size : Nat) :
    Option (Client α) :=
  addBatches embed collection_name
    (create_collection (delete_collection client collection_name) collection_name)
    (sliceBatches batch_size chunks)

/-!
Query pipeline (query_rag.py). The retrieval backend (embedding model
plus ChromaDB query) and the Gemini model are the two external
collaborators of InvoiceRAG; they are modelled as function-valued fields
so that theorems quantify over every possible provider behaviour. The
returned answer is paired with the number of generation-provider calls
made while producing it.
-/

/-- One numbered context block of format_retrieved_context
(query_rag.py line 60), with the running 1-based index; a metadata dict
without a file_name key is a KeyError, modelled as none. -/
def contextBlocks : Nat → List (String × List (String × JVal)) → Option (List String)
  | _, [] => some []
  | i, (doc, meta) :: rest =>
    match meta.lookup "file_name", contextBlocks (i + 1) rest with
    | some fn, some more =>
        some (("--- Invoice " ++ toString i ++ " (" ++ pyStr fn ++ ") ---\n" ++ doc) :: more)
    | _, _ => none

/-- format_retrieved_context (query_rag.py lines 53-62): the parallel
documents and metadatas lists are zipped, numbered from 1, rendered as
headed blocks and joined by a blank line. -/
def format_retrieved_context (documents : List String)
    (metadatas : List (List (String × JVal))) : Option String :=
  (contextBlocks 1 (documents.zip metadatas)).map (String.intercalate "\n\n")

/-- The fixed instruction template of generate_answer (query_rag.py
lines 81-90), with the context and the verbatim query interpolated. -/
def ragPrompt (context query : String) : String :=
  "You are an invoice analysis assistant. Answer questions based on the invoice data provided.\n\nInvoice Data:\n"
    ++ context
    ++ "\n\nQuestion: " ++ query
    ++ "\n\nProvide a clear, concise answer based on the invoice information above. If the answer requires specific amounts or dates, include them in your response.\n\nAnswer:"

/-- The two external collaborators of InvoiceRAG: retrieveDocs models
self.retrieve followed by taking documents[0] and metadatas[0]
(query_rag.py lines 42-51 and 71), and llm models
self.llm.generate_content followed by .text (lines 94-96). -/
structure RAG where
  retrieveDocs : String → Nat → List String × List (List (String × JVal))
  llm : String → String

/-- generate_answer (query_rag.py lines 64-96). The second component of
the result counts the calls made to the generation provider; none models
an uncaught exception (KeyError while formatting the context). -/
def generate_answer (rag : RAG) (query : String) (n_results : Nat) :
    Option (String × Nat) :=
  let results := rag.retrieveDocs query n_results
  let documents := results.1
  if documents.isEmpty then
    some ("No relevant invoices found in the database.", 0)
  else
    (format_retrieved_context documents results.2).map fun context =>
      (rag.llm (ragPrompt context query), 1)

/-- Python str.strip(): drop leading and trailing whitespace. -/
def pyStrip (s : String) : String :=
  String.mk (((s.data.dropWhile Char.isWhitespace).reverse.dropWhile Char.isWhitespace).reverse)

/-- Python str.lower() on the ASCII range. -/
def pyLower (s : String) : String :=
  String.mk (s.data.map Char.toLower)

/-- Observable events of one interactive session (query_rag.py chat).
answered and errorReported each correspond to exactly one invocation of
generate_answer; goodbye is the sentinel exit. -/
inductive ChatEvent where
  | answered (query answer : String)
  | errorReported (query err : String)
  | goodbye
deriving Repr, DecidableEq

/-- chat (query_rag.py lines 98-124), as a trace semantics over the
finite list of stdin lines: each line is stripped; a sentinel line ends
the loop; an empty line is skipped; otherwise the per-query processing
step runs, and either its answer or its caught error is printed. The
processing step is a parameter so that theorems quantify over every
possible per-query outcome, Except.error modelling a raised exception. -/
def chat (process : String → Except String String) : List String → List ChatEvent
  | [] => []
  | line :: rest =>
    let query := pyStrip line
    if ["quit", "exit", "q"].contains (pyLower query) then
      [ChatEvent.goodbye]
    else if query == "" then
      chat process rest
    else
      match process query with
      | .ok answer => ChatEvent.answered query answer :: chat process rest
      | .error e => ChatEvent.errorReported query e :: chat process rest

/-- Number of invocations of the answer generator visible in a session
trace. -/
def generatorCalls (events : List ChatEvent) : Nat :=
  events.countP fun e =>
    match e with
    | ChatEvent.goodbye => false
    | _ => true

def demoChunkA : Chunk :=
  { id := "a", text := "ta",
    metadata := [("file_name", JVal.str "a.json"), ("source_index", JVal.num 0),
                 ("has_image", JVal.bool true)] }

def demoChunkB : Chunk :=
  { id := "b", text := "tb",
    metadata := [("file_name", JVal.str "b.json"), ("source_index", JVal.num 1),
                 ("has_image", JVal.bool false)] }

def demoOldClient : Client Nat :=
  [("invoices_collection", [{ id := "z", embedding := 9, document := "old", metadata := [] }])]

def demoResC6 : Client Nat :=
  [("invoices_collection",
    [{ id := "a", embedding := 2, document := "ta",
       metadata := [("file_name", JVal.str "a.json"), ("source_index", JVal.num 0),
                    ("has_image", JVal.bool true)] },
     { id := "b", embedding := 2, document := "tb",
       metadata := [("file_name", JVal.str "b.json"), ("source_index", JVal.num 1),
                    ("has_image", JVal.bool false)] }])]

def demoInvoice : Invoice :=
  { id := "invoice_0", file_name := "a.png", data := [("vendor", JVal.str "Acme")],
    source_index := 0, has_image := true }

def demoEntryC10 : Entry Nat :=
  { id := "invoice_0", embedding := 28, document := "Invoice: a.png\n\nVendor: Acme",
    metadata := [("file_name", JVal.str "a.png"), ("source_index", JVal.num 0),
                 ("has_image", JVal.bool true)] }

/-- A retrieval backend that returns nothing, paired with a generation
provider; used to witness the empty-retrieval fallback. -/
def demoRAG : RAG :=
  { retrieveDocs := fun _ _ => ([], []), llm := fun _ => "ANSWER" }

/-- A per-query processing step that always raises; used to witness the
error resilience of the interactive session. -/
def demoProcessBoom : String → Except String String :=
  fun _ => Except.error "boom"

/-- The formatter as the specification describes it, with the two
amendments the code forces: a preferred field whose value is a mapping
is emitted even when the mapping is empty (and hence falsy), and
remaining (non-preferred) fields render via the Python string form of
the whole value rather than the comma-joined or json form. -/
def specFormatDescription (record : Record) : String :=
  let preferredLines := field_mapping.filterMap fun fl =>
    (record.lookup fl.1).bind fun v =>
      if truthy v || (match v with | JVal.obj _ => true | _ => false) then
        some (fl.2 ++ ": " ++
          (match v with
           | JVal.list xs => String.intercalate ", " (xs.map pyStr)
           | JVal.obj fs => jsonDumps (JVal.obj fs)
           | w => pyStr w))
      else none
  let remainingLines := (record.filter fun kv =>
      !((field_mapping.map Prod.fst).contains kv.1) && truthy kv.2).map fun kv =>
    kv.1 ++ ": " ++ pyStr kv.2
  String.intercalate "\n" (preferredLines ++ remainingLines)

/-!
Shared lemmas.
-/

/-- A successful association-list lookup witnesses membership of the
key-value pair. -/
theorem lookup_mem {β : Type} {key : String} {v : β} :
    ∀ {d : List (String × β)}, List.lookup key d = some v → (key, v) ∈ d := by
  intro d
  induction d with
  | nil => intro h; simp at h
  | cons kv rest ih =>
    intro h
    obtain ⟨k, w⟩ := kv
    rw [List.lookup_cons] at h
    by_cases hk : key == k
    · simp only [hk] at h
      obtain rfl : w = v := by injection h
      obtain rfl : key = k := by exact eq_of_beq hk
      exact List.mem_cons_self _ _
    · simp only [Bool.of_not_eq_true hk] at h
      exact List.mem_cons_of_mem _ (ih h)

/-- Adding no entries leaves the client unchanged. -/
theorem add_entries_nil {α : Type} (client : Client α) (name : String) :
    add_entries client name [] = client := by
  induction client with
  | nil => rfl
  | cons c rest ih =>
    obtain ⟨n, es⟩ := c
    simp only [add_entries, List.map_cons] at *
    rw [ih]
    by_cases hc : n = name <;> simp [hc]

/-- Two successive adds to the same collection amount to one add of the
concatenation. -/
theorem add_entries_append {α : Type} (client : Client α) (name : String)
    (a b : List (Entry α)) :
    add_entries (add_entries client name a) name b = add_entries client name (a ++ b) := by
  induction client with
  | nil => rfl
  | cons c rest ih =>
    obtain ⟨n, es⟩ := c
    simp only [add_entries, List.map_cons] at *
    rw [ih]
    by_cases hc : n = name <;> simp [hc]

/-- processBatch distributes over list append. -/
theorem processBatch_append {α : Type} (embed : String → α) (l1 l2 : List Chunk) :
    processBatch embed (l1 ++ l2) =
      match processBatch embed l1, processBatch embed l2 with
      | some a, some b => some (a ++ b)
      | _, _ => none := by
  induction l1 with
  | nil =>
    simp only [List.nil_append, processBatch]
    cases processBatch embed l2 <;> rfl
  | cons c rest ih =>
    simp only [List.cons_append, processBatch, List.append_eq]
    rw [ih]
    cases persistMetadata c <;> cases processBatch embed rest <;>
      cases processBatch embed l2 <;> rfl

/-- A successful processBatch yields one entry per chunk. -/
theorem processBatch_length {α : Type} (embed : String → α) :
    ∀ (chunks : List Chunk) (es : List (Entry α)),
      processBatch embed chunks = some es → es.length = chunks.length := by
  intro chunks
  induction chunks with
  | nil => intro es h; simp only [processBatch] at h; cases h; rfl
  | cons c rest ih =>
    intro es h
    simp only [processBatch] at h
    cases hm : persistMetadata c <;> rw [hm] at h
    · cases h
    · cases hr : processBatch embed rest <;> rw [hr] at h
      · cases h
      · cases h
        simp only [List.length_cons, ih _ hr]

/-- Every entry of a successful processBatch carries the flattened
metadata of one of the processed chunks. -/
theorem processBatch_mem {α : Type} (embed : String → α) :
    ∀ (chunks : List Chunk) (es : List (Entry α)),
      processBatch embed chunks = some es → ∀ e ∈ es,
        ∃ c ∈ chunks, persistMetadata c = some e.metadata ∧
          e.id = c.id ∧ e.document = c.text ∧ e.embedding = embed c.text := by
  intro chunks
  induction chunks with
  | nil =>
    intro es h e he
    simp only [processBatch] at h
    cases h
    simp at he
  | cons c rest ih =>
    intro es h e he
    simp only [processBatch] at h
    cases hm : persistMetadata c <;> rw [hm] at h
    · cases h
    · cases hr : processBatch embed rest <;> rw [hr] at h
      · cases h
      · cases h
        rcases List.mem_cons.1 he with rfl | hmem
        · exact ⟨c, List.mem_cons_self _ _, hm, rfl, rfl, rfl⟩
        · obtain ⟨c2, hc2, hrest⟩ := ih _ hr e hmem
          exact ⟨c2, List.mem_cons_of_mem _ hc2, hrest⟩

/-- The batch loop equals one flattened processBatch over the joined
batches followed by a single add. -/
theorem addBatches_eq {α : Type} (embed : String → α) (name : String) :
    ∀ (batchList : List (List Chunk)) (client : Client α),
      addBatches embed name client batchList =
        (processBatch embed batchList.flatten).map (add_entries client name) := by
  intro batchList
  induction batchList with
  | nil =>
    intro client
    simp [addBatches, processBatch, add_entries_nil]
  | cons b rest ih =>
    intro client
    simp only [addBatches, List.flatten_cons, processBatch_append]
    cases hb : processBatch embed b with
    | none => rfl
    | some es =>
      change addBatches embed name (add_entries client name es) rest = _
      rw [ih]
      cases hr : processBatch embed rest.flatten with
      | none => rfl
      | some es2 => simp [add_entries_append]

/-- Slicing into batches of a positive size and re-joining restores the
chunk list. -/
theorem sliceBatches_flatten {β : Type} (batch_size : Nat) (hbs : 1 ≤ batch_size) :
    ∀ (xs : List β), (sliceBatches batch_size xs).flatten = xs := by
  intro xs
  generalize hn : xs.length = n
  induction n using Nat.strong_induction_on generalizing xs with
  | _ n ih =>
    rw [sliceBatches.eq_def]
    have hbz : ¬ batch_size = 0 := by omega
    rw [dif_neg hbz]
    cases xs with
    | nil => simp
    | cons x rest =>
      simp only [List.flatten_cons]
      have hlt : ((x :: rest).drop batch_size).length < n := by
        subst hn
        simp only [List.length_drop, List.length_cons]
        omega
      rw [ih _ hlt _ rfl]
      exact List.take_append_drop _ _

/-- For a positive batch size the whole build is one flattened
processBatch over the chunk list, added to the freshly created
collection. -/
theorem build_eq {α : Type} (embed : String → α) (client : Client α) (chunks : List Chunk)
    (name : String) (batch_size : Nat) (hbs : 1 ≤ batch_size) :
    build_invoice_vectordb embed client chunks name batch_size =
      (processBatch embed chunks).map
        (add_entries (create_collection (delete_collection client name) name) name) := by
  rw [build_invoice_vectordb, addBatches_eq, sliceBatches_flatten _ hbs]

/-- Reading back the collection that was just created and filled returns
exactly the added entries, whatever the rest of the client holds. -/
theorem get_collection_fresh {α : Type} (client : Client α) (name : String)
    (es : List (Entry α)) :
    get_collection (add_entries (create_collection client name) name es) name = some es := by
  unfold get_collection add_entries create_collection
  rw [List.map_cons]
  simp

/-- C6: after a successful build over chunks with pairwise-distinct ids,
the count of the named collection equals the number of input chunks, and
any pre-existing collection of that name is gone: the final contents of
the named collection are the same whatever client state the build
started from. -/
theorem indexer_count_and_rebuild {α : Type} (embed : String → α) (client : Client α)
    (chunks : List Chunk) (name : String) (batch_size : Nat)
    (hbs : 1 ≤ batch_size) (hids : (chunks.map Chunk.id).Nodup)
    (res : Client α)
    (hbuild : build_invoice_vectordb embed client chunks name batch_size = some res) :
    (get_collection res name).map List.length = some chunks.length ∧
    ∀ (client2 res2 : Client α),
      build_invoice_vectordb embed client2 chunks name batch_size = some res2 →
      get_collection res2 name = get_collection res name := by
  rw [build_eq _ _ _ _ _ hbs] at hbuild
  cases hp : processBatch embed chunks with
  | none => rw [hp] at hbuild; cases hbuild
  | some es =>
    rw [hp, Option.map_some'] at hbuild
    injection hbuild with hres
    subst hres
    refine ⟨?_, ?_⟩
    · rw [get_collection_fresh]
      simp [processBatch_length _ _ _ hp]
    · intro client2 res2 h2
      rw [build_eq _ _ _ _ _ hbs, hp, Option.map_some'] at h2
      injection h2 with hres2
      subst hres2
      rw [get_collection_fresh, get_collection_fresh]

/-- Witness for C6 at a concrete client that already holds a collection
of the same name: the rebuilt collection has exactly the two new
entries. -/
theorem indexer_count_and_rebuild_witness :
    (get_collection demoResC6 "invoices_collection").map List.length = some 2 :=
  (indexer_count_and_rebuild (fun s => s.length) demoOldClient [demoChunkA, demoChunkB]
    "invoices_collection" 1 (by decide) (by decide) demoResC6
    (by simp [build_invoice_vectordb, sliceBatches.eq_def, addBatches, processBatch,
      persistMetadata, delete_collection, create_collection, add_entries, List.lookup,
      demoChunkA, demoChunkB, demoOldClient, demoResC6] <;> decide)).1

/-- C7: batch boundaries do not affect the result of the build: for any
two positive batch sizes the builds agree on the whole resulting client
state, in particular on the contents of the collection. -/
theorem build_batch_size_irrelevant {α : Type} (embed : String → α) (client : Client α)
    (chunks : List Chunk) (name : String) (b1 b2 : Nat)
    (h1 : 1 ≤ b1) (h2 : 1 ≤ b2) :
    build_invoice_vectordb embed client chunks name b1 =
      build_invoice_vectordb embed client chunks name b2 := by
  rw [build_eq _ _ _ _ _ h1, build_eq _ _ _ _ _ h2]

/-- Witness for C7: batch sizes 1 and 2 on a three-chunk list. -/
theorem build_batch_size_irrelevant_witness :
    build_invoice_vectordb (fun s => s.length) ([] : Client Nat)
        [demoChunkA, demoChunkB, demoChunkA] "invoices_collection" 1 =
      build_invoice_vectordb (fun s => s.length) ([] : Client Nat)
        [demoChunkA, demoChunkB, demoChunkA] "invoices_collection" 2 :=
  build_batch_size_irrelevant (fun s => s.length) [] [demoChunkA, demoChunkB, demoChunkA]
    "invoices_collection" 1 2 (by decide) (by decide)

/-- C10: the metadata persisted for every indexed chunk built by the
chunk builder holds exactly the three keys file_name, source_index and
has_image, copied from the chunk metadata; the nested structured_data
entry written by the chunk builder is dropped and never stored. -/
theorem persisted_metadata_exact {α : Type} (embed : String → α)
    (invoices : List Invoice) (es : List (Entry α))
    (h : processBatch embed (create_invoice_chunks invoices) = some es)
    (e : Entry α) (he : e ∈ es) :
    ∃ inv, inv ∈ invoices ∧
      e.metadata = [("file_name", JVal.str inv.file_name),
                    ("source_index", JVal.num inv.source_index),
                    ("has_image", JVal.bool inv.has_image)] ∧
      List.lookup "structured_data" e.metadata = none := by
  obtain ⟨c, hc, hm, _⟩ := processBatch_mem _ _ _ h e he
  simp only [create_invoice_chunks] at hc
  obtain ⟨inv, hinv, rfl⟩ := List.mem_map.1 hc
  have hpm : persistMetadata (chunkOfInvoice inv) =
      some [("file_name", JVal.str inv.file_name),
            ("source_index", JVal.num inv.source_index),
            ("has_image", JVal.bool inv.has_image)] := by
    simp [persistMetadata, chunkOfInvoice, List.lookup]
  rw [hpm] at hm
  injection hm with hm2
  refine ⟨inv, hinv, hm2.symm, ?_⟩
  rw [← hm2]
  simp [List.lookup]

/-- Witness for C10 at one concrete invoice. -/
theorem persisted_metadata_exact_witness :
    ∃ inv, inv ∈ [demoInvoice] ∧
      demoEntryC10.metadata = [("file_name", JVal.str inv.file_name),
        ("source_index", JVal.num inv.source_index),
        ("has_image", JVal.bool inv.has_image)] ∧
      List.lookup "structured_data" demoEntryC10.metadata = none :=
  persisted_metadata_exact (fun s => s.length) [demoInvoice] [demoEntryC10]
    (by
      simp [processBatch, create_invoice_chunks, chunkOfInvoice, persistMetadata,
        List.lookup, format_invoice_as_text, preferredParts, extraParts, renderPreferred,
        field_mapping, truthy, pyStr, List.filterMap_cons, demoInvoice, demoEntryC10]
      decide)
    demoEntryC10 (by simp)

/-- C8: the chunk builder is a positional one-to-one mapping: the output
has the same length as the input, the chunk at each position takes its
id from the record at that position, and its text is the formatter
output for that record prepended with the one-line file-name header. -/
theorem chunk_builder_one_to_one (invoices : List Invoice) (i : Nat) :
    (create_invoice_chunks invoices).length = invoices.length ∧
    ((create_invoice_chunks invoices).get? i).map Chunk.id =
      (invoices.get? i).map Invoice.id ∧
    ((create_invoice_chunks invoices).get? i).map Chunk.text =
      (invoices.get? i).map fun inv =>
        "Invoice: " ++ inv.file_name ++ "\n\n" ++ format_invoice_as_text inv.data := by
  refine ⟨by simp [create_invoice_chunks], ?_, ?_⟩ <;>
    · simp only [create_invoice_chunks, List.getElem?_map, List.get?_eq_getElem?]
      cases hg : invoices[i]? <;> simp [hg, chunkOfInvoice]

/-- A line produced by the preferred-field loop comes from a truthy
value or from a mapping value (mappings are emitted unconditionally). -/
theorem renderPreferred_some (label : String) (v : JVal) (line : String)
    (h : renderPreferred label v = some line) :
    truthy v = true ∨ ∃ fs, v = JVal.obj fs := by
  cases v with
  | obj fs => exact Or.inr ⟨fs, rfl⟩
  | list xs =>
    left
    simp only [renderPreferred] at h
    by_cases hx : xs.isEmpty
    · rw [if_pos hx] at h; cases h
    · simpa [truthy] using hx
  | str s =>
    left
    simp only [renderPreferred] at h
    by_cases ht : truthy (JVal.str s)
    · exact ht
    · simp [ht] at h
  | num n =>
    left
    simp only [renderPreferred] at h
    by_cases ht : truthy (JVal.num n)
    · exact ht
    · simp [ht] at h
  | null =>
    simp [renderPreferred, truthy] at h
  | bool b =>
    left
    simp only [renderPreferred] at h
    by_cases ht : truthy (JVal.bool b)
    · exact ht
    · simp [ht] at h

/-- C4 fails as stated: a record holding an empty mapping under the
preferred field address emits the line Address: \x7b\x7d even though the
empty mapping is falsy. -/
theorem formatter_emits_line_for_falsy_mapping :
    format_invoice_as_text [("address", JVal.obj [])] = "Address: \x7b\x7d" ∧
    truthy (JVal.obj []) = false := by
  refine ⟨?_, rfl⟩
  simp only [format_invoice_as_text, preferredParts, extraParts, renderPreferred, field_mapping,
    truthy, jsonDumps, jsonDumpsObj, List.filterMap_cons, List.lookup, List.filterMap_nil]
  rfl

/-- C4 (amended): every emitted line of the formatter comes from a field
present in the record whose value is truthy, except that a line may also
come from a field whose value is a mapping (a preferred mapping-valued
field is emitted even when the mapping is empty and hence falsy): each
line is the rendering of such a field, either through the preferred-field
loop under the label the field table assigns to its key, or through the
remaining-fields loop as key, colon and the str() form of its value. -/
theorem formatter_line_sources (record : Record) (line : String)
    (h : line ∈ preferredParts record ++ extraParts record) :
    ∃ kv, kv ∈ record ∧ (truthy kv.2 = true ∨ ∃ fs, kv.2 = JVal.obj fs) ∧
      ((∃ label, (kv.1, label) ∈ field_mapping ∧ renderPreferred label kv.2 = some line) ∨
        line = kv.1 ++ ": " ++ pyStr kv.2) := by
  rcases List.mem_append.1 h with hp | he
  · rw [preferredParts] at hp
    obtain ⟨fl, hfm, hfl⟩ := List.mem_filterMap.1 hp
    cases hv : record.lookup fl.1 with
    | none => rw [hv] at hfl; cases hfl
    | some v =>
      rw [hv] at hfl
      exact ⟨(fl.1, v), lookup_mem hv, renderPreferred_some _ _ _ hfl,
        Or.inl ⟨fl.2, hfm, hfl⟩⟩
  · rw [extraParts] at he
    obtain ⟨kv, hkv, hif⟩ := List.mem_filterMap.1 he
    by_cases hc : (!((field_mapping.map Prod.fst).contains kv.1) && truthy kv.2) = true
    · rw [if_pos hc] at hif
      injection hif with hline
      rw [Bool.and_eq_true] at hc
      exact ⟨kv, hkv, Or.inl hc.2, Or.inr hline.symm⟩
    · rw [if_neg hc] at hif; cases hif

/-- Witness for the amended C4 at a one-field record whose single line
is Vendor: Acme. -/
theorem formatter_line_sources_witness :
    ∃ kv, kv ∈ ([("vendor", JVal.str "Acme")] : Record) ∧
      (truthy kv.2 = true ∨ ∃ fs, kv.2 = JVal.obj fs) ∧
      ((∃ label, (kv.1, label) ∈ field_mapping ∧
          renderPreferred label kv.2 = some "Vendor: Acme") ∨
        "Vendor: Acme" = kv.1 ++ ": " ++ pyStr kv.2) :=
  formatter_line_sources [("vendor", JVal.str "Acme")] "Vendor: Acme"
    (by
      simp only [preferredParts, extraParts, renderPreferred, field_mapping, truthy, pyStr,
        List.filterMap_cons, List.lookup, List.filterMap_nil]
      decide)

/-- C3 fails as stated: the chunk the builder produces for demoInvoice
carries the nested structured_data mapping in its metadata. -/
theorem chunk_metadata_not_flat :
    ¬ ∀ c ∈ create_invoice_chunks [demoInvoice], ∀ kv ∈ c.metadata, isScalar kv.2 = true := by
  intro hall
  have hc : chunkOfInvoice demoInvoice ∈ create_invoice_chunks [demoInvoice] := by
    simp [create_invoice_chunks]
  have hkv : ("structured_data", JVal.obj demoInvoice.data) ∈
      (chunkOfInvoice demoInvoice).metadata := by
    simp [chunkOfInvoice]
  have := hall _ hc _ hkv
  simp [isScalar, demoInvoice] at this

/-- C3 (amended): apart from its structured_data entry every metadata
value of a built chunk is a flat scalar, and the metadata the indexer
persists for such a chunk consists of flat scalars only: the nested
value never reaches the store. -/
theorem chunk_metadata_flat_except_structured (invoices : List Invoice) (c : Chunk)
    (hc : c ∈ create_invoice_chunks invoices) :
    (∀ kv ∈ c.metadata, kv.1 ≠ "structured_data" → isScalar kv.2 = true) ∧
    ∀ m, persistMetadata c = some m → ∀ kv ∈ m, isScalar kv.2 = true := by
  simp only [create_invoice_chunks] at hc
  obtain ⟨inv, _, rfl⟩ := List.mem_map.1 hc
  constructor
  · intro kv hkv hne
    simp only [chunkOfInvoice, List.mem_cons, List.not_mem_nil, or_false] at hkv
    rcases hkv with rfl | rfl | rfl | rfl
    · rfl
    · rfl
    · rfl
    · exact absurd rfl hne
  · intro m hm kv hkv
    have hpm : persistMetadata (chunkOfInvoice inv) =
        some [("file_name", JVal.str inv.file_name),
              ("source_index", JVal.num inv.source_index),
              ("has_image", JVal.bool inv.has_image)] := by
      simp [persistMetadata, chunkOfInvoice, List.lookup]
    rw [hpm] at hm
    injection hm with hm2
    subst hm2
    simp only [List.mem_cons, List.not_mem_nil, or_false] at hkv
    rcases hkv with rfl | rfl | rfl <;> rfl

/-- Witness for the amended C3: the has_image metadata entry of the
chunk built for demoInvoice is a flat scalar. -/
theorem chunk_metadata_flat_except_structured_witness :
    isScalar (JVal.bool true) = true :=
  (chunk_metadata_flat_except_structured [demoInvoice] (chunkOfInvoice demoInvoice)
      (by simp [create_invoice_chunks])).1
    ("has_image", JVal.bool true) (by simp [chunkOfInvoice, demoInvoice]) (by decide)

/-- The preferred-field loop body agrees with the spec description of
it, once mapping values are emitted unconditionally. -/
theorem renderPreferred_spec (label : String) (v : JVal) :
    renderPreferred label v =
      (if truthy v || (match v with | JVal.obj _ => true | _ => false) then
        some (label ++ ": " ++
          (match v with
           | JVal.list xs => String.intercalate ", " (xs.map pyStr)
           | JVal.obj fs => jsonDumps (JVal.obj fs)
           | w => pyStr w))
      else none) := by
  cases v with
  | list xs =>
    simp only [renderPreferred, truthy, Bool.or_false]
    by_cases hx : xs.isEmpty <;> simp [hx]
  | obj fs => simp [renderPreferred, truthy]
  | str s => simp [renderPreferred, truthy]
  | num n => simp [renderPreferred, truthy]
  | bool b => simp [renderPreferred, truthy]
  | null => simp [renderPreferred, truthy]

/-- Mapping after filtering is one filterMap. -/
theorem map_filter_eq_filterMap {γ δ : Type} (p : γ → Bool) (f : γ → δ) :
    ∀ (l : List γ), (l.filter p).map f =
      l.filterMap fun x => if p x then some (f x) else none := by
  intro l
  induction l with
  | nil => rfl
  | cons x rest ih =>
    by_cases hx : p x <;> simp [List.filter_cons, hx, ih]

/-- C5 fails as stated: under the non-preferred field notes a list value
renders via str() as notes: [1, 2], not as the comma-joined form
notes: 1, 2 the claim prescribes for list values. -/
theorem formatter_extra_list_not_comma_joined :
    format_invoice_as_text [("notes", JVal.list [JVal.num 1, JVal.num 2])] =
      "notes: [1, 2]" ∧
    "notes: [1, 2]" ≠ "notes: 1, 2" := by
  constructor
  · simp only [format_invoice_as_text, preferredParts, extraParts, renderPreferred,
      field_mapping, truthy, pyStr, pyRepr, pyReprList, List.filterMap_cons, List.lookup,
      List.filterMap_nil]
    rfl
  · decide

/-- C5 (amended): the formatter emits, newline-joined, one line per
present preferred field whose value is truthy or a mapping, in the fixed
preferred order (lists comma-joined, mappings compact-serialized even
when empty, scalars direct), followed by one line per remaining truthy
field in record order rendered via the Python string form of the whole
value; the empty record yields the empty string, and the spec example
holds. -/
theorem formatter_description (record : Record) :
    format_invoice_as_text record = specFormatDescription record ∧
    format_invoice_as_text [] = "" ∧
    format_invoice_as_text
        [("total", JVal.num 100), ("vendor", JVal.str "Acme"), ("notes", JVal.str "")] =
      "Vendor: Acme\nTotal Amount: 100" := by
  refine ⟨?_, rfl, ?_⟩
  · rw [format_invoice_as_text, specFormatDescription]
    have h1 : preferredParts record = field_mapping.filterMap fun fl =>
        (record.lookup fl.1).bind fun v =>
          if truthy v || (match v with | JVal.obj _ => true | _ => false) then
            some (fl.2 ++ ": " ++
              (match v with
               | JVal.list xs => String.intercalate ", " (xs.map pyStr)
               | JVal.obj fs => jsonDumps (JVal.obj fs)
               | w => pyStr w))
          else none := by
      rw [preferredParts]
      congr 1
      funext fl
      cases record.lookup fl.1 with
      | none => rfl
      | some v => exact renderPreferred_spec fl.2 v
    have h2 : extraParts record = (record.filter fun kv =>
        !((field_mapping.map Prod.fst).contains kv.1) && truthy kv.2).map fun kv =>
      kv.1 ++ ": " ++ pyStr kv.2 := by
      rw [extraParts, map_filter_eq_filterMap]
    rw [h1, h2]
  · simp only [format_invoice_as_text, preferredParts, extraParts, renderPreferred,
      field_mapping, truthy, pyStr, List.filterMap_cons, List.lookup, List.filterMap_nil]
    rfl

/-- The block list of the context assembler over parallel documents and
file-name metadata, starting from any ordinal. -/
theorem contextBlocks_eq (documents : List String) :
    ∀ (i : Nat) (metadatas : List (List (String × JVal))) (fns : List JVal),
      metadatas.map (fun m => List.lookup "file_name" m) = fns.map some →
      contextBlocks i (documents.zip metadatas) =
        some (((documents.zip fns).enumFrom i).map fun p =>
          "--- Invoice " ++ toString p.1 ++ " (" ++ pyStr p.2.2 ++ ") ---\n" ++ p.2.1) := by
  induction documents with
  | nil => intro i metadatas fns h; simp [contextBlocks]
  | cons d ds ih =>
    intro i metadatas fns h
    cases metadatas with
    | nil =>
      cases fns with
      | nil => simp [contextBlocks]
      | cons f fs => simp at h
    | cons m ms =>
      cases fns with
      | nil => simp at h
      | cons f fs =>
        simp only [List.map_cons, List.cons.injEq] at h
        obtain ⟨hf, hrest⟩ := h
        have hz1 : (d :: ds).zip (m :: ms) = (d, m) :: ds.zip ms := rfl
        have hz2 : (d :: ds).zip (f :: fs) = (d, f) :: ds.zip fs := rfl
        rw [hz1, hz2]
        simp only [contextBlocks, hf]
        rw [ih (i + 1) ms fs hrest]
        simp [List.enumFrom]

/-- C9: the context assembler emits one block per (document, metadata)
pair in result order, each headed by the 1-based ordinal and the
file_name of its metadata with the raw document text below, blocks
separated by a blank line; the empty result yields the empty string. -/
theorem context_assembler_blocks (documents : List String)
    (metadatas : List (List (String × JVal))) (fns : List JVal)
    (h : metadatas.map (fun m => List.lookup "file_name" m) = fns.map some) :
    format_retrieved_context documents metadatas =
      some (String.intercalate "\n\n"
        (((documents.zip fns).enumFrom 1).map fun p =>
          "--- Invoice " ++ toString p.1 ++ " (" ++ pyStr p.2.2 ++ ") ---\n" ++ p.2.1)) ∧
    format_retrieved_context [] [] = some "" := by
  refine ⟨?_, rfl⟩
  rw [format_retrieved_context, contextBlocks_eq documents 1 metadatas fns h]
  rfl

/-- Witness for C9 at one retrieved document. -/
theorem context_assembler_blocks_witness :
    format_retrieved_context ["Invoice text"] [[("file_name", JVal.str "a.pdf")]] =
      some "--- Invoice 1 (a.pdf) ---\nInvoice text" := by
  have h := (context_assembler_blocks ["Invoice text"] [[("file_name", JVal.str "a.pdf")]]
    [JVal.str "a.pdf"] rfl).1
  rw [h]
  simp only [List.zip_cons_cons, List.zip_nil_right, List.enumFrom, List.map_cons,
    List.map_nil, pyStr]
  rfl

/-- C1: when retrieval returns zero documents, generate_answer returns
exactly the literal fallback string and makes no call to the generation
provider. -/
theorem empty_retrieval_fallback (rag : RAG) (query : String) (n_results : Nat)
    (h : (rag.retrieveDocs query n_results).1 = []) :
    generate_answer rag query n_results =
      some ("No relevant invoices found in the database.", 0) := by
  rw [generate_answer]
  simp [h]

/-- Witness for C1: a backend that retrieves nothing. -/
theorem empty_retrieval_fallback_witness :
    generate_answer demoRAG "What is the total of invoice 1?" 5 =
      some ("No relevant invoices found in the database.", 0) :=
  empty_retrieval_fallback demoRAG "What is the total of invoice 1?" 5 rfl

/-- C2: a sentinel input (whose stripped lowercased form is quit, exit
or q) ends the session at once with no invocation of the answer
generator, and an error raised while processing any other non-empty
input is caught and reported, the session continuing with the remaining
inputs. -/
theorem chat_sentinel_and_error_resilience (process : String → Except String String)
    (line : String) (rest : List String) :
    (["quit", "exit", "q"].contains (pyLower (pyStrip line)) = true →
      chat process (line :: rest) = [ChatEvent.goodbye] ∧
      generatorCalls (chat process (line :: rest)) = 0) ∧
    (["quit", "exit", "q"].contains (pyLower (pyStrip line)) = false →
      pyStrip line ≠ "" →
      ∀ e, process (pyStrip line) = Except.error e →
        chat process (line :: rest) =
          ChatEvent.errorReported (pyStrip line) e :: chat process rest) := by
  constructor
  · intro hs
    have hchat : chat process (line :: rest) = [ChatEvent.goodbye] := by
      simp only [chat]
      rw [if_pos hs]
    exact ⟨hchat, by rw [hchat]; rfl⟩
  · intro hs hne e herr
    simp only [chat]
    rw [if_neg (by rw [hs]; exact Bool.false_ne_true), if_neg (by simp [hne]), herr]

/-- Witness for C2: the padded upper-case sentinel terminates at once,
and a raising query is reported while the session then processes the
next input. -/
theorem chat_sentinel_and_error_resilience_witness :
    chat demoProcessBoom [" QUIT ", "hello"] = [ChatEvent.goodbye] ∧
    chat demoProcessBoom ["hello", "q"] =
      [ChatEvent.errorReported "hello" "boom", ChatEvent.goodbye] := by
  constructor
  · exact ((chat_sentinel_and_error_resilience demoProcessBoom " QUIT " ["hello"]).1
      (by decide)).1
  · rw [(chat_sentinel_and_error_resilience demoProcessBoom "hello" ["q"]).2
      (by decide) (by decide) "boom" rfl]
    rfl
